import Mathlib

/-!
Shallow embedding of the internship-marketplace backend's core:
the listing catalog (internship records) and the application ledger,
together with the route handlers the claims are about.

Sources embedded:
- `models/Internship` (src/unnamed/part_003): the Opportunity schema with
  its defaults (`currentApplications: 0`, `views: 0`, `isActive: true`,
  `maxApplications: 100`, `experienceLevel: 'entry-level'`).
- `models/Application.js`: the Application schema and its unique
  `(internship, applicant)` index.
- `models/User.js`: the user schema's `role` enum and default.
- routes in src/unnamed/part_000 (auth), src/unnamed/part_001
  (internships) and src/routes/companies.js.

The document store is modelled as in-memory lists of records; mongoose
`find?`/`findOneAndUpdate`/`findOneAndDelete` become list operations that
act on the first matching record. Dates are integer timestamps. `$regex`
filters (used by the search route with user-supplied plain strings) are
modelled as case-insensitive substring tests, and the `$text` index over
title/description/skills (part_003 line 113) as a substring test over
those three fields.
-/

/-- Models `mongoose.Types.ObjectId.isValid`: a 24-character hex string,
or any 12-character string (interpreted as 12 raw bytes). -/
def isValidObjectId (s : String) : Bool :=
  (s.length == 24 && s.toList.all (fun c => c.isDigit
      || ('a' ≤ c && c ≤ 'f') || ('A' ≤ c && c ≤ 'F')))
  || s.length == 12

/-- JS `String.prototype.trim`: drop whitespace from both ends.
(Structurally recursive so that concrete instances evaluate.) -/
def jsTrim (s : String) : String :=
  String.mk (((s.data.dropWhile Char.isWhitespace).reverse.dropWhile Char.isWhitespace).reverse)

/-- Splits a character list at every comma, keeping empty pieces —
the semantics of JS `str.split(',')`. -/
def splitCommaAux : List Char → List (List Char)
  | [] => [[]]
  | c :: cs =>
    match splitCommaAux cs with
    | [] => [[]]
    | g :: gs => if c = ',' then [] :: g :: gs else (c :: g) :: gs

/-- JS `str.split(',')`. -/
def jsSplitComma (s : String) : List String :=
  (splitCommaAux s.data).map String.mk

/-- Does `needle` start `hay`? -/
def charPrefix : List Char → List Char → Bool
  | [], _ => true
  | _ :: _, [] => false
  | c :: cs, d :: ds => c == d && charPrefix cs ds

/-- Does `needle` occur inside `hay`? -/
def charInfix (hay needle : List Char) : Bool :=
  match hay with
  | [] => charPrefix needle []
  | _ :: t => charPrefix needle hay || charInfix t needle

/-- Case-insensitive substring test: models a user-supplied plain string
used with `$regex ... $options: 'i'`. -/
def strContainsCI (hay needle : String) : Bool :=
  charInfix (hay.data.map Char.toLower) (needle.data.map Char.toLower)

/-- The `salary` sub-document of the internship schema (part_003 lines 55-66). -/
structure Salary where
  amount : Option Int
  currency : String
  period : String
deriving DecidableEq

/-- An Opportunity record: `models/Internship` (src/unnamed/part_003).
`createdAt` comes from the schema's `timestamps: true`. -/
structure Internship where
  id : String
  company : String
  title : String
  description : String
  requirements : List String
  responsibilities : List String
  skills : List String
  location : String
  internshipType : String
  duration : String
  startDate : Int
  endDate : Int
  applicationDeadline : Int
  salary : Option Salary
  benefits : List String
  category : String
  industry : String
  experienceLevel : String
  maxApplications : Nat
  currentApplications : Nat
  isActive : Bool
  isFeatured : Bool
  views : Nat
  tags : List String
  createdAt : Int
deriving DecidableEq

/-- An Application record: `models/Application.js`. -/
structure Application where
  id : String
  internship : String
  applicant : String
  company : String
  coverLetter : String
  resume : String
  status : String
  appliedAt : Int
deriving DecidableEq

/-- A Student principal: the fields of `models/User.js` the claims need. -/
structure User where
  id : String
  firstName : String
  lastName : String
  email : String
  password : String
  resume : String
  role : String
deriving DecidableEq

/-- The document store: one list per collection. -/
structure DB where
  internships : List Internship
  applications : List Application
deriving DecidableEq

/-- Models `Internship.findById(id)` over the modelled store. -/
def findInternship (db : DB) (id : String) : Option Internship :=
  db.internships.find? (fun i => i.id == id)

/-- Replaces the first record satisfying `p` by `f` of it (models a
mongoose `doc.save()` after in-place mutation, and `findOneAndUpdate`). -/
def updateFirst (p : α → Bool) (f : α → α) : List α → List α
  | [] => []
  | a :: as => if p a then f a :: as else a :: updateFirst p f as

/-- Removes the first record satisfying `p` (models `findOneAndDelete`). -/
def removeFirst (p : α → Bool) : List α → List α
  | [] => []
  | a :: as => if p a then as else a :: removeFirst p as

/-- A request-body value for one of the five list fields
(requirements / responsibilities / skills / benefits / tags): either a
JSON array of strings, a single string, or absent. A JSON empty string
is `str ""` (falsy in the handlers' `x ? _ : _` tests, like absence). -/
inductive ListInput
  | arr (xs : List String)
  | str (s : String)
  | absent
deriving DecidableEq

/-- List-field normalization of `POST /api/internships`
(src/unnamed/part_001 lines 247-262):
`Array.isArray(x) ? x : (x ? x.split(',').map(t => t.trim()) : [])`. -/
def normalizeListField : ListInput → List String
  | .arr xs => xs
  | .str s => if s == "" then [] else (jsSplitComma s).map jsTrim
  | .absent => []

/-- List-field normalization of the companies create route
(src/routes/companies.js lines 130-145):
`x ? x.split(',').map(t => t.trim()) : []` — no array case, so an array
input throws a TypeError (`none`). -/
def normalizeListFieldCo : ListInput → Option (List String)
  | .arr _ => none
  | .str s => some (if s == "" then [] else (jsSplitComma s).map jsTrim)
  | .absent => some []

/-- List-field treatment of the companies update route
(src/routes/companies.js lines 189-203):
`if (updates.f) { updates.f = updates.f.split(',').map(t => t.trim()) }`.
An absent or empty-string value is left alone (falsy guard); a non-empty
string is split; an array is truthy yet has no `.split`, so the handler
throws a TypeError (`none`). -/
def updateNormField : ListInput → Option ListInput
  | .arr _ => none
  | .str s => some (if s == "" then .str "" else .arr ((jsSplitComma s).map jsTrim))
  | .absent => some .absent

/-- Request body of `POST /api/internships` (src/unnamed/part_001 lines
222-241), after express-validator has accepted it (title/description/
location/internshipType/duration/dates/category/industry present). -/
structure CreateBody where
  title : String
  description : String
  requirements : ListInput
  responsibilities : ListInput
  skills : ListInput
  benefits : ListInput
  tags : ListInput
  location : String
  internshipType : String
  duration : String
  startDate : Int
  endDate : Int
  applicationDeadline : Int
  salary : Option Salary
  category : String
  industry : String
  experienceLevel : Option String
  maxApplications : Option Nat
deriving DecidableEq

/-- The `POST /api/internships` handler (src/unnamed/part_001 lines 209-271):
builds the record via `Internship.create`, normalizing the five list
fields; schema defaults fill `experienceLevel`, `maxApplications`,
`currentApplications = 0`, `isActive = true`, `isFeatured = false`,
`views = 0` (src/unnamed/part_003). `newId`/`createdAt` model the
store-assigned `_id` and timestamp. Returns the created record and the
new store state. -/
def createInternship (db : DB) (companyId newId : String) (createdAt : Int)
    (b : CreateBody) : Internship × DB :=
  let i : Internship :=
    { id := newId
      company := companyId
      title := b.title
      description := b.description
      requirements := normalizeListField b.requirements
      responsibilities := normalizeListField b.responsibilities
      skills := normalizeListField b.skills
      location := b.location
      internshipType := b.internshipType
      duration := b.duration
      startDate := b.startDate
      endDate := b.endDate
      applicationDeadline := b.applicationDeadline
      salary := b.salary
      benefits := normalizeListField b.benefits
      category := b.category
      industry := b.industry
      experienceLevel := b.experienceLevel.getD "entry-level"
      maxApplications := b.maxApplications.getD 100
      currentApplications := 0
      isActive := true
      isFeatured := false
      views := 0
      tags := normalizeListField b.tags
      createdAt := createdAt }
  (i, { db with internships := db.internships ++ [i] })

/-- Outcome of `GET /api/internships/:id` (src/unnamed/part_001 lines
276-297). -/
inductive FetchOutcome
  | invalidId
  | notFound
  | ok (i : Internship)
deriving DecidableEq

/-- HTTP status of each `GET /api/internships/:id` outcome. -/
def fetchStatus : FetchOutcome → Nat
  | .invalidId => 400
  | .notFound => 404
  | .ok _ => 200

/-- The `GET /api/internships/:id` handler (src/unnamed/part_001 lines
276-297): rejects a structurally invalid id with 400, a missing record
with 404, and otherwise increments `views` by 1 and saves. -/
def getByIdHandler (db : DB) (id : String) : FetchOutcome × DB :=
  if !isValidObjectId id then (.invalidId, db)
  else
    match findInternship db id with
    | none => (.notFound, db)
    | some i =>
      let i1 := { i with views := i.views + 1 }
      (.ok i1,
       { db with internships := updateFirst (fun j => j.id == id) (fun _ => i1) db.internships })

/-- Outcome of `POST /api/internships/:id/apply` (src/unnamed/part_001
lines 302-365). -/
inductive ApplyOutcome
  | invalidId
  | notFound
  | deadlinePassed
  | alreadyApplied
  | maxReached
  | resumeRequired
  | created (app : Application)
deriving DecidableEq

/-- HTTP status of each apply outcome. -/
def applyStatus : ApplyOutcome → Nat
  | .invalidId => 400
  | .notFound => 404
  | .deadlinePassed => 400
  | .alreadyApplied => 400
  | .maxReached => 400
  | .resumeRequired => 400
  | .created _ => 201

/-- Response message of each apply outcome (the route's literal strings). -/
def applyMessage : ApplyOutcome → String
  | .invalidId => "Invalid internship ID format"
  | .notFound => "Internship not found or not available"
  | .deadlinePassed => "Application deadline has passed"
  | .alreadyApplied => "You have already applied for this internship"
  | .maxReached => "This internship has reached maximum applications"
  | .resumeRequired => "Resume is required to apply for internships. Please upload your resume in your profile first."
  | .created _ => "Application submitted successfully"

/-- The `POST /api/internships/:id/apply` handler (src/unnamed/part_001 lines
302-365), after auth and the cover-letter validator. `now` is the wall
clock (`new Date()`), `userId`/`userResume` come from `req.user`, and
`newAppId` models the store-assigned `_id` of the created Application.
Checks, in source order: id format; existence and `isActive` (404);
`now > applicationDeadline` (400); an existing Application for this
(internship, applicant) pair (400); `currentApplications >=
maxApplications` (400); empty resume (400). On success it creates the
Application (status `pending`) and then increments and saves
`currentApplications`. -/
def applyHandler (db : DB) (now : Int) (internshipId userId userResume coverLetter newAppId : String) :
    ApplyOutcome × DB :=
  if !isValidObjectId internshipId then (.invalidId, db)
  else
    match findInternship db internshipId with
    | none => (.notFound, db)
    | some i =>
      if !i.isActive then (.notFound, db)
      else if i.applicationDeadline < now then (.deadlinePassed, db)
      else if (db.applications.find? (fun a => a.internship == internshipId && a.applicant == userId)).isSome then
        (.alreadyApplied, db)
      else if i.maxApplications ≤ i.currentApplications then (.maxReached, db)
      else if jsTrim userResume == "" then (.resumeRequired, db)
      else
        let app : Application :=
          { id := newAppId
            internship := internshipId
            applicant := userId
            company := i.company
            coverLetter := coverLetter
            resume := userResume
            status := "pending"
            appliedAt := now }
        let i1 := { i with currentApplications := i.currentApplications + 1 }
        (.created app,
         { internships := updateFirst (fun j => j.id == internshipId) (fun _ => i1) db.internships
           applications := db.applications ++ [app] })

/-- Parsed query of `GET /api/internships` (src/unnamed/part_001 lines
15-28). String filters that arrive absent or as the empty string are
falsy in the handler and modelled as `none`; `page`/`limit` are the
`parseInt` results of the supplied values (defaults 1 and 10). -/
structure SearchQuery where
  search : Option String
  location : Option String
  industry : Option String
  internshipType : Option String
  category : Option String
  experienceLevel : Option String
  salaryMin : Option Int
  salaryMax : Option Int
  page : Nat
  limit : Nat
  sort : String
  ord : String
deriving DecidableEq

/-- Models the `$text` search over the schema's text index on
title/description/skills (src/unnamed/part_003 line 113). -/
def textMatches (s : String) (i : Internship) : Bool :=
  strContainsCI i.title s || strContainsCI i.description s
    || i.skills.any (fun sk => strContainsCI sk s)

/-- The mongo query object built by the search handler (src/unnamed/
part_001 lines 30-68), as a predicate on records: `isActive: true`
always; each filter only when supplied; the salary bound applies to
`salary.amount`, which a record without an amount cannot match. -/
def matchesQuery (q : SearchQuery) (i : Internship) : Bool :=
  i.isActive
  && (match q.search with | none => true | some s => textMatches s i)
  && (match q.location with | none => true | some l => strContainsCI i.location l)
  && (match q.industry with | none => true | some s => strContainsCI i.industry s)
  && (match q.internshipType with | none => true | some t => i.internshipType == t)
  && (match q.category with | none => true | some c => strContainsCI i.category c)
  && (match q.experienceLevel with | none => true | some e => i.experienceLevel == e)
  && (match q.salaryMin, q.salaryMax with
      | none, none => true
      | lo, hi =>
        match i.salary with
        | none => false
        | some sal =>
          match sal.amount with
          | none => false
          | some amt =>
            (match lo with | none => true | some v => v ≤ amt)
            && (match hi with | none => true | some v => amt ≤ v))

/-- Insertion into a list sorted by `le` (helper for the sort stage). -/
def insertLe (le : α → α → Bool) (a : α) : List α → List α
  | [] => [a]
  | b :: bs => if le a b then a :: b :: bs else b :: insertLe le a bs

/-- Insertion sort by `le` (models the store's `.sort(sortOptions)`). -/
def sortByLe (le : α → α → Bool) : List α → List α
  | [] => []
  | a :: as => insertLe le a (sortByLe le as)

/-- The sort stage of the search handler (src/unnamed/part_001 lines
71-80): one of four recognized keys, direction from `order === 'desc'`;
an unrecognized key leaves the natural order. A record without a salary
amount sorts below every amount (mongo: missing sorts first ascending). -/
def searchSort (sortKey ord : String) (l : List Internship) : List Internship :=
  let dir : Int → Int → Bool :=
    if ord == "desc" then (fun a b => b ≤ a) else (fun a b => a ≤ b)
  let amt : Internship → Option Int := fun i => i.salary.bind (fun s => s.amount)
  if sortKey == "createdAt" then sortByLe (fun a b => dir a.createdAt b.createdAt) l
  else if sortKey == "applicationDeadline" then
    sortByLe (fun a b => dir a.applicationDeadline b.applicationDeadline) l
  else if sortKey == "salary" then
    sortByLe (fun a b =>
      match amt a, amt b with
      | none, none => true
      | none, some _ => !(ord == "desc")
      | some _, none => ord == "desc"
      | some x, some y => dir x y) l
  else if sortKey == "views" then
    sortByLe (fun a b => dir (Int.ofNat a.views) (Int.ofNat b.views)) l
  else l

/-- Response of the search route (src/unnamed/part_001 lines 95-102).
`pages` is `Math.ceil(total / limitNum)`: `none` models the `NaN`
produced when the parsed limit is 0 (`0 / 0`). -/
structure SearchResponse where
  success : Bool
  count : Nat
  total : Nat
  page : Nat
  pages : Option Nat
  internships : List Internship
deriving DecidableEq

/-- The `GET /api/internships` handler (src/unnamed/part_001 lines 14-103):
filter on the query object, sort, skip `(page-1)*limit`, take `limit`
(a mongo `limit(0)` imposes no limit), count matching documents, and
shape the response. -/
def searchHandler (db : DB) (q : SearchQuery) : SearchResponse :=
  let matched := db.internships.filter (matchesQuery q)
  let sorted := searchSort q.sort q.ord matched
  let skipped := sorted.drop ((q.page - 1) * q.limit)
  let paged := if q.limit == 0 then skipped else skipped.take q.limit
  { success := true
    count := paged.length
    total := matched.length
    page := q.page
    pages := if q.limit == 0 then none else some ((matched.length + q.limit - 1) / q.limit)
    internships := paged }

/-- Request body of `PUT /api/companies/internships/:id`
(src/routes/companies.js lines 172-209): `updates = req.body` is passed
straight to `findOneAndUpdate`, so any schema field present in the body
is applied — including `currentApplications`, `views`, `isActive` and
`isFeatured`. Absent fields are `none`/`.absent`. -/
structure UpdateBody where
  title : Option String
  description : Option String
  requirements : ListInput
  responsibilities : ListInput
  skills : ListInput
  benefits : ListInput
  tags : ListInput
  location : Option String
  internshipType : Option String
  duration : Option String
  startDate : Option Int
  endDate : Option Int
  applicationDeadline : Option Int
  salary : Option Salary
  category : Option String
  industry : Option String
  experienceLevel : Option String
  maxApplications : Option Nat
  currentApplications : Option Nat
  isActive : Option Bool
  isFeatured : Option Bool
  views : Option Nat
deriving DecidableEq

/-- An update body with every field absent. -/
def emptyUpdateBody : UpdateBody :=
  { title := none, description := none
    requirements := .absent, responsibilities := .absent, skills := .absent
    benefits := .absent, tags := .absent
    location := none, internshipType := none, duration := none
    startDate := none, endDate := none, applicationDeadline := none
    salary := none, category := none, industry := none
    experienceLevel := none, maxApplications := none
    currentApplications := none, isActive := none, isFeatured := none
    views := none }

/-- The `Convert comma-separated strings to arrays` block of the update
route (src/routes/companies.js lines 189-203) over all five list
fields; `none` when any of the five unconditional `.split` calls throws
(the field held an array). -/
def normalizeUpdateBody (b : UpdateBody) : Option UpdateBody := do
  let r ← updateNormField b.requirements
  let rs ← updateNormField b.responsibilities
  let sk ← updateNormField b.skills
  let bf ← updateNormField b.benefits
  let tg ← updateNormField b.tags
  pure { b with requirements := r, responsibilities := rs, skills := sk
                benefits := bf, tags := tg }

/-- A normalized list-field value as `findOneAndUpdate` applies it to an
array path: an array replaces the stored list; a leftover scalar string
is cast to a one-element list (mongoose array cast); absent keeps the
stored value. -/
def applyListUpdate (v : ListInput) (old : List String) : List String :=
  match v with
  | .absent => old
  | .arr xs => xs
  | .str s => [s]

/-- Applies the update body onto a stored record as a mongo set (the
`findOneAndUpdate(filter, updates, ...)` document update). -/
def applyUpdates (b : UpdateBody) (i : Internship) : Internship :=
  { i with
    title := b.title.getD i.title
    description := b.description.getD i.description
    requirements := applyListUpdate b.requirements i.requirements
    responsibilities := applyListUpdate b.responsibilities i.responsibilities
    skills := applyListUpdate b.skills i.skills
    benefits := applyListUpdate b.benefits i.benefits
    tags := applyListUpdate b.tags i.tags
    location := b.location.getD i.location
    internshipType := b.internshipType.getD i.internshipType
    duration := b.duration.getD i.duration
    startDate := b.startDate.getD i.startDate
    endDate := b.endDate.getD i.endDate
    applicationDeadline := b.applicationDeadline.getD i.applicationDeadline
    salary := match b.salary with | none => i.salary | some s => some s
    category := b.category.getD i.category
    industry := b.industry.getD i.industry
    experienceLevel := b.experienceLevel.getD i.experienceLevel
    maxApplications := b.maxApplications.getD i.maxApplications
    currentApplications := b.currentApplications.getD i.currentApplications
    isActive := b.isActive.getD i.isActive
    isFeatured := b.isFeatured.getD i.isFeatured
    views := b.views.getD i.views }

/-- Outcome of `PUT /api/companies/internships/:id`. `typeError` is the
uncaught `.split`-on-array TypeError, surfaced by the top-level error
boundary as a 500 (spec section 7); `notFound` is the single 404 used
both for a missing id and a non-owned record. -/
inductive UpdateOutcome
  | typeError
  | notFound
  | ok (i : Internship)
deriving DecidableEq

/-- HTTP status of each update outcome. -/
def updateStatus : UpdateOutcome → Nat
  | .typeError => 500
  | .notFound => 404
  | .ok _ => 200

/-- The `PUT /api/companies/internships/:id` handler (src/routes/companies.js
lines 172-219): normalize the five list fields (throwing on arrays),
then `findOneAndUpdate({ _id: id, company: caller }, updates)` — the
existence and ownership checks are one combined filter, and a `null`
result is answered with the same 404 body either way. -/
def updateInternshipHandler (db : DB) (callerId id : String) (b : UpdateBody) :
    UpdateOutcome × DB :=
  match normalizeUpdateBody b with
  | none => (.typeError, db)
  | some b1 =>
    match db.internships.find? (fun i => i.id == id && i.company == callerId) with
    | none => (.notFound, db)
    | some i =>
      let i1 := applyUpdates b1 i
      (.ok i1,
       { db with internships :=
           updateFirst (fun j => j.id == id && j.company == callerId) (fun _ => i1) db.internships })

/-- Outcome of `DELETE /api/companies/internships/:id`. -/
inductive DeleteOutcome
  | notFound
  | deleted
deriving DecidableEq

/-- HTTP status of each delete outcome. -/
def deleteStatus : DeleteOutcome → Nat
  | .notFound => 404
  | .deleted => 200

/-- The `DELETE /api/companies/internships/:id` handler
(src/routes/companies.js lines 224-238):
`findOneAndDelete({ _id: id, company: caller })`, 404 on `null` —
again one combined existence-and-ownership filter. -/
def deleteInternshipHandler (db : DB) (callerId id : String) : DeleteOutcome × DB :=
  match db.internships.find? (fun i => i.id == id && i.company == callerId) with
  | none => (.notFound, db)
  | some _ =>
    (.deleted,
     { db with internships := removeFirst (fun i => i.id == id && i.company == callerId) db.internships })

/-- The `POST /api/companies/internships` handler (src/routes/companies.js
lines 90-152): identical to `createInternship` except that its list
normalization has no array case, so an array-valued list field throws
(`none`, a 500 from the top-level boundary). -/
def companiesCreateInternship (db : DB) (companyId newId : String) (createdAt : Int)
    (b : CreateBody) : Option (Internship × DB) := do
  let r ← normalizeListFieldCo b.requirements
  let rs ← normalizeListFieldCo b.responsibilities
  let sk ← normalizeListFieldCo b.skills
  let bf ← normalizeListFieldCo b.benefits
  let tg ← normalizeListFieldCo b.tags
  let i : Internship :=
    { id := newId
      company := companyId
      title := b.title
      description := b.description
      requirements := r
      responsibilities := rs
      skills := sk
      location := b.location
      internshipType := b.internshipType
      duration := b.duration
      startDate := b.startDate
      endDate := b.endDate
      applicationDeadline := b.applicationDeadline
      salary := b.salary
      benefits := bf
      category := b.category
      industry := b.industry
      experienceLevel := b.experienceLevel.getD "entry-level"
      maxApplications := b.maxApplications.getD 100
      currentApplications := 0
      isActive := true
      isFeatured := false
      views := 0
      tags := tg
      createdAt := createdAt }
  pure (i, { db with internships := db.internships ++ [i] })

/-- The user schema's `role` enum (models/User.js lines 80-84). -/
def userRoles : List String := ["intern", "company", "admin"]

/-- Request body of `POST /api/auth/register` (src/unnamed/part_000
lines 13-50), after the express-validator checks. `role` is `none` when
the field is absent (or `undefined`), which triggers the destructuring
default `role = 'intern'`. -/
structure RegisterBody where
  firstName : String
  lastName : String
  email : String
  password : String
  role : Option String
deriving DecidableEq

/-- Outcome of `POST /api/auth/register`: duplicate-email 400, a
mongoose enum-validation failure for a role outside the schema enum, or
the created user (201). -/
inductive RegisterOutcome
  | emailExists
  | invalidRole
  | created (u : User)
deriving DecidableEq

/-- The `POST /api/auth/register` handler (src/unnamed/part_000 lines
13-50): reject a duplicate email, else `User.create` with
`role = req.body.role ?? 'intern'`; the schema enum (models/User.js
lines 80-84) rejects a role outside {intern, company, admin}. The
stored password is bcrypt-hashed by the pre-save hook; hashing is an
external collaborator and the hash is kept abstract as the given
password. -/
def registerHandler (users : List User) (freshId : String) (b : RegisterBody) :
    RegisterOutcome × List User :=
  if (users.find? (fun u => u.email == b.email)).isSome then (.emailExists, users)
  else
    let role := b.role.getD "intern"
    if userRoles.contains role then
      let u : User :=
        { id := freshId
          firstName := b.firstName
          lastName := b.lastName
          email := b.email
          password := b.password
          resume := ""
          role := role }
      (.created u, users ++ [u])
    else (.invalidRole, users)

/-- The Application ledger invariant behind the unique
`(internship, applicant)` index (models/Application.js line 45): no two
records share the pair. -/
def pairUnique (apps : List Application) : Prop :=
  apps.Pairwise (fun a b => ¬(a.internship = b.internship ∧ a.applicant = b.applicant))

/-- A fixed well-formed 24-hex ObjectId used by concrete instances. -/
def oid1 : String := "aaaaaaaaaaaaaaaaaaaaaaaa"

/-- A second fixed ObjectId. -/
def oid2 : String := "bbbbbbbbbbbbbbbbbbbbbbbb"

/-- A concrete baseline Opportunity record for witnesses and
counterexamples. -/
def baseInternship : Internship :=
  { id := oid1
    company := "c1"
    title := "Backend intern"
    description := "Node backend work"
    requirements := []
    responsibilities := []
    skills := []
    location := "Addis Ababa"
    internshipType := "remote"
    duration := "3 months"
    startDate := 0
    endDate := 1000
    applicationDeadline := 500
    salary := none
    benefits := []
    category := "Software"
    industry := "Tech"
    experienceLevel := "entry-level"
    maxApplications := 100
    currentApplications := 0
    isActive := true
    isFeatured := false
    views := 0
    tags := []
    createdAt := 0 }

/-- A concrete baseline create body. -/
def baseCreateBody : CreateBody :=
  { title := "Backend intern"
    description := "Node backend work"
    requirements := .absent
    responsibilities := .absent
    skills := .absent
    benefits := .absent
    tags := .absent
    location := "Addis Ababa"
    internshipType := "remote"
    duration := "3 months"
    startDate := 0
    endDate := 1000
    applicationDeadline := 500
    salary := none
    category := "Software"
    industry := "Tech"
    experienceLevel := none
    maxApplications := none }

/-- The empty store. -/
def emptyDB : DB := { internships := [], applications := [] }

/-- The `updateFirst` replacement is found again by the same predicate. -/
theorem find?_updateFirst_of_some {α : Type _} {p : α → Bool} {l : List α} {a : α}
    (h : l.find? p = some a) (b : α) (hb : p b = true) :
    (updateFirst p (fun _ => b) l).find? p = some b := by
  induction l with
  | nil => simp at h
  | cons x xs ih =>
    by_cases hx : p x = true
    · simp only [updateFirst, hx, if_true]
      exact List.find?_cons_of_pos _ hb
    · have hx' : p x = false := by simpa using hx
      rw [List.find?_cons_of_neg _ hx] at h
      simp only [updateFirst, hx', Bool.false_eq_true, if_false]
      rw [List.find?_cons_of_neg _ hx]
      exact ih h

/-- The function `updateFirst` leaves a list alone when nothing satisfies `p`. -/
theorem updateFirst_of_none {α : Type _} {p : α → Bool} {f : α → α} {l : List α}
    (h : l.find? p = none) : updateFirst p f l = l := by
  induction l with
  | nil => rfl
  | cons x xs ih =>
    rw [List.find?_eq_none] at h
    have hx : p x = false := by simpa using h x (by simp)
    have hxs : xs.find? p = none := by
      rw [List.find?_eq_none]
      intro y hy
      exact h y (by simp [hy])
    simp [updateFirst, hx, ih hxs]

/-- Sorting the empty result set is the empty list, whatever the key. -/
theorem searchSort_nil (sortKey ord : String) : searchSort sortKey ord [] = [] := by
  unfold searchSort
  split_ifs <;> rfl

/-- Inversion of a successful apply: every precondition passed, and the
new state is the old one with the Application appended and the record's
counter bumped. -/
theorem applyHandler_created_inv {db : DB} {now : Int}
    {id uid r cl nid : String} {app : Application} {db' : DB}
    (h : applyHandler db now id uid r cl nid = (.created app, db')) :
    ∃ i, isValidObjectId id = true
      ∧ findInternship db id = some i
      ∧ i.isActive = true
      ∧ ¬(i.applicationDeadline < now)
      ∧ db.applications.find? (fun a => a.internship == id && a.applicant == uid) = none
      ∧ i.currentApplications < i.maxApplications
      ∧ jsTrim r ≠ ""
      ∧ app = { id := nid, internship := id, applicant := uid, company := i.company,
                coverLetter := cl, resume := r, status := "pending", appliedAt := now }
      ∧ db' = { internships := updateFirst (fun j => j.id == id)
                  (fun _ => { i with currentApplications := i.currentApplications + 1 }) db.internships,
                applications := db.applications ++ [app] } := by
  unfold applyHandler at h
  split at h
  · simp at h
  · rename_i hvalid
    split at h
    · simp at h
    · rename_i i hfind
      split at h
      · simp at h
      · rename_i hactive
        split at h
        · simp at h
        · rename_i hdeadline
          split at h
          · simp at h
          · rename_i hexisting
            split at h
            · simp at h
            · rename_i hmax
              split at h
              · simp at h
              · rename_i hresume
                refine ⟨i, ?_, hfind, ?_, hdeadline, ?_, ?_, ?_, ?_, ?_⟩
                · simpa using hvalid
                · simpa using hactive
                · simpa using hexisting
                · exact Nat.lt_of_not_le hmax
                · simpa using hresume
                · simp only [Prod.mk.injEq, ApplyOutcome.created.injEq] at h
                  exact h.1.symm
                · simp only [Prod.mk.injEq, ApplyOutcome.created.injEq] at h
                  rw [← h.2, ← h.1]

/-- Claim C1: for every (Opportunity, Student) pair at most one
Application record exists — the handler's duplicate check keeps the
ledger's pairwise uniqueness invariant across any apply call — and a
second Apply by the same Student against the same Opportunity fails
with the already-applied Conflict (a domain 400) and leaves the store,
in particular the Application ledger, unchanged. -/
theorem C1_apply_unique_pair :
    (∀ (db : DB) (now : Int) (id uid r cl nid r2 cl2 nid2 : String)
        (app : Application) (db' : DB),
      applyHandler db now id uid r cl nid = (.created app, db') →
      applyHandler db' now id uid r2 cl2 nid2 = (.alreadyApplied, db')
        ∧ applyStatus .alreadyApplied = 400)
    ∧ (∀ (db : DB) (now : Int) (id uid r cl nid : String),
        pairUnique db.applications →
        pairUnique ((applyHandler db now id uid r cl nid).2).applications) := by
  constructor
  · intro db now id uid r cl nid r2 cl2 nid2 app db' h
    obtain ⟨i, hvalid, hfind, hactive, hdl, hnone, hlt, hres, happ, hdb'⟩ :=
      applyHandler_created_inv h
    have hfind0 : db.internships.find? (fun j => j.id == id) = some i := hfind
    have hp0 := List.find?_some hfind0
    have hp : (i.id == id) = true := by simpa using hp0
    have hfind' : findInternship db' id =
        some { i with currentApplications := i.currentApplications + 1 } := by
      rw [hdb']
      exact find?_updateFirst_of_some hfind _ (by simpa using hp)
    have happs : db'.applications = db.applications ++ [app] := by rw [hdb']
    have hpair : db'.applications.find?
        (fun a => a.internship == id && a.applicant == uid) = some app := by
      rw [happs, List.find?_append, hnone]
      simp [happ]
    refine ⟨?_, rfl⟩
    unfold applyHandler
    rw [hvalid, hfind']
    simp [hactive, hdl, hpair]
  · intro db now id uid r cl nid hu
    unfold applyHandler
    split
    · exact hu
    · split
      · exact hu
      · rename_i i hfind
        split
        · exact hu
        · split
          · exact hu
          · split
            · exact hu
            · rename_i hexisting
              split
              · exact hu
              · split
                · exact hu
                · have hnone : db.applications.find?
                      (fun a => a.internship == id && a.applicant == uid) = none := by
                    simpa using hexisting
                  rw [List.find?_eq_none] at hnone
                  show pairUnique (db.applications ++ [_])
                  rw [pairUnique, List.pairwise_append]
                  refine ⟨hu, by simp, ?_⟩
                  intro a ha b hb
                  simp only [List.mem_singleton] at hb
                  subst hb
                  intro hcontra
                  obtain ⟨h1, h2⟩ := hcontra
                  exact hnone a ha (by simp [h1, h2])

/-- Store with one fresh Opportunity, before any application. -/
def exDB0 : DB := { internships := [baseInternship], applications := [] }

/-- The Application created by the concrete successful apply below. -/
def exApp : Application :=
  { id := "app1aaaaaaa1"
    internship := oid1
    applicant := "u1"
    company := "c1"
    coverLetter := "letter"
    resume := "resume.pdf"
    status := "pending"
    appliedAt := 100 }

/-- The store after that successful apply. -/
def exDB1 : DB :=
  { internships := [{ baseInternship with currentApplications := 1 }]
    applications := [exApp] }

/-- Witness for C1 at a concrete store: student u1 has applied once, and
a repeat apply is answered with the already-applied Conflict while the
store stays `exDB1`; the invariant is preserved on a further call. -/
theorem C1_witness :
    (applyHandler exDB1 100 oid1 "u1" "r2" "c2" "a2" = (.alreadyApplied, exDB1)
      ∧ applyStatus .alreadyApplied = 400)
    ∧ pairUnique ((applyHandler exDB1 100 oid1 "u1" "r2" "c2" "a2").2).applications :=
  ⟨C1_apply_unique_pair.1 exDB0 100 oid1 "u1" "resume.pdf" "letter" "app1aaaaaaa1"
      "r2" "c2" "a2" exApp exDB1 (by decide),
   C1_apply_unique_pair.2 exDB1 100 oid1 "u1" "r2" "c2" "a2"
      (by simp [pairUnique, exDB1])⟩

/-- Claim C2: Apply checks its five preconditions in the source's stated
order, each failing one answered by its own distinct failure: (1) a
missing or inactive Opportunity is the 404; (2) otherwise a past
deadline is the deadline Conflict — with no assumption about remaining
capacity; (3) otherwise a pre-existing Application for the pair is the
already-applied Conflict; (4) otherwise a full cap is the
max-applications Conflict; (5) otherwise an empty resume is the
resume failure; when all five pass the Application is created. The
five failure messages are pairwise distinct. -/
theorem C2_apply_precondition_order :
    (∀ (db : DB) (now : Int) (id uid r cl nid : String),
      isValidObjectId id = true → findInternship db id = none →
      applyHandler db now id uid r cl nid = (.notFound, db))
    ∧ (∀ (db : DB) (now : Int) (id uid r cl nid : String) (i : Internship),
        isValidObjectId id = true → findInternship db id = some i →
        (i.isActive = false → applyHandler db now id uid r cl nid = (.notFound, db))
        ∧ (i.isActive = true → i.applicationDeadline < now →
            applyHandler db now id uid r cl nid = (.deadlinePassed, db))
        ∧ (i.isActive = true → ¬(i.applicationDeadline < now) →
            (db.applications.find? (fun a => a.internship == id && a.applicant == uid)).isSome = true →
            applyHandler db now id uid r cl nid = (.alreadyApplied, db))
        ∧ (i.isActive = true → ¬(i.applicationDeadline < now) →
            db.applications.find? (fun a => a.internship == id && a.applicant == uid) = none →
            i.maxApplications ≤ i.currentApplications →
            applyHandler db now id uid r cl nid = (.maxReached, db))
        ∧ (i.isActive = true → ¬(i.applicationDeadline < now) →
            db.applications.find? (fun a => a.internship == id && a.applicant == uid) = none →
            i.currentApplications < i.maxApplications → jsTrim r = "" →
            applyHandler db now id uid r cl nid = (.resumeRequired, db))
        ∧ (i.isActive = true → ¬(i.applicationDeadline < now) →
            db.applications.find? (fun a => a.internship == id && a.applicant == uid) = none →
            i.currentApplications < i.maxApplications → jsTrim r ≠ "" →
            (applyHandler db now id uid r cl nid).1 = .created
              { id := nid, internship := id, applicant := uid, company := i.company,
                coverLetter := cl, resume := r, status := "pending", appliedAt := now }))
    ∧ [applyMessage .notFound, applyMessage .deadlinePassed, applyMessage .alreadyApplied,
        applyMessage .maxReached, applyMessage .resumeRequired].Nodup := by
  refine ⟨?_, ?_, by decide⟩
  · intro db now id uid r cl nid hvalid hfind
    unfold applyHandler
    rw [hvalid, hfind]
    simp
  · intro db now id uid r cl nid i hvalid hfind
    refine ⟨?_, ?_, ?_, ?_, ?_, ?_⟩
    · intro hactive
      unfold applyHandler
      rw [hvalid, hfind]
      simp [hactive]
    · intro hactive hdl
      unfold applyHandler
      rw [hvalid, hfind]
      simp [hactive, hdl]
    · intro hactive hdl hdup
      unfold applyHandler
      rw [hvalid, hfind]
      simp [hactive, hdl, hdup]
    · intro hactive hdl hdup hmax
      unfold applyHandler
      rw [hvalid, hfind]
      simp [hactive, hdl, hdup, hmax]
    · intro hactive hdl hdup hmax hres
      unfold applyHandler
      rw [hvalid, hfind]
      simp [hactive, hdl, hdup, Nat.not_le_of_lt hmax, hres]
    · intro hactive hdl hdup hmax hres
      unfold applyHandler
      rw [hvalid, hfind]
      simp [hactive, hdl, hdup, Nat.not_le_of_lt hmax, hres]

/-- An Opportunity whose deadline (50) is already past at time 100,
with all of its capacity still free. -/
def exLate : Internship := { baseInternship with applicationDeadline := 50 }

/-- Store holding only the expired Opportunity. -/
def exDBLate : DB := { internships := [exLate], applications := [] }

/-- Witness for C2: at time 100 an apply against the expired (deadline
50) but completely uncrowded Opportunity fails with the deadline
Conflict, and the five failure messages are distinct. -/
theorem C2_witness :
    applyHandler exDBLate 100 oid1 "u1" "resume.pdf" "cl" "a1" = (.deadlinePassed, exDBLate)
      ∧ [applyMessage .notFound, applyMessage .deadlinePassed, applyMessage .alreadyApplied,
          applyMessage .maxReached, applyMessage .resumeRequired].Nodup :=
  ⟨((C2_apply_precondition_order.2.1 exDBLate 100 oid1 "u1" "resume.pdf" "cl" "a1" exLate
      (by decide) (by decide)).2.1) (by decide) (by decide),
   C2_apply_precondition_order.2.2⟩

/-- Claim C3 (amended): `currentApplications` is 0 on every created
record (the create handlers never set it, so the schema default 0
applies), and every successful Apply increments it by exactly 1 on the
stored record; however it is not modified only by Apply: the owner
Update route passes the request body through unfiltered, so an Update
naming `currentApplications` sets it to an arbitrary value and the
counter is not monotonic over arbitrary operation sequences. -/
theorem C3_currentApplications_sources :
    (∀ (db : DB) (cid nid : String) (t : Int) (b : CreateBody),
      ((createInternship db cid nid t b).1).currentApplications = 0)
    ∧ (∀ (db : DB) (now : Int) (id uid r cl nid : String) (app : Application) (db' : DB),
        applyHandler db now id uid r cl nid = (.created app, db') →
        ∃ i, findInternship db id = some i
          ∧ findInternship db' id = some { i with currentApplications := i.currentApplications + 1 })
    ∧ (∀ (db : DB) (caller id : String) (i : Internship) (n : Nat),
        db.internships.find? (fun j => j.id == id && j.company == caller) = some i →
        (updateInternshipHandler db caller id
            { emptyUpdateBody with currentApplications := some n }).1
          = .ok (applyUpdates { emptyUpdateBody with currentApplications := some n } i)
        ∧ (applyUpdates { emptyUpdateBody with currentApplications := some n } i).currentApplications = n) := by
  refine ⟨fun db cid nid t b => rfl, ?_, ?_⟩
  · intro db now id uid r cl nid app db' h
    obtain ⟨i, hvalid, hfind, hactive, hdl, hnone, hlt, hres, happ, hdb'⟩ :=
      applyHandler_created_inv h
    refine ⟨i, hfind, ?_⟩
    have hfind0 : db.internships.find? (fun j => j.id == id) = some i := hfind
    have hp0 := List.find?_some hfind0
    rw [hdb']
    exact find?_updateFirst_of_some hfind0 _ (by simpa using hp0)
  · intro db caller id i n hfound
    unfold updateInternshipHandler
    rw [show normalizeUpdateBody { emptyUpdateBody with currentApplications := some n }
        = some { emptyUpdateBody with currentApplications := some n } from rfl]
    rw [hfound]
    exact ⟨rfl, rfl⟩

/-- The stored record before the arbitrary overwrite: 3 applications. -/
def exIntern3 : Internship := { baseInternship with currentApplications := 3 }

/-- Store holding it. -/
def exDB3 : DB := { internships := [exIntern3], applications := [] }

/-- An owner update body that names only `currentApplications`. -/
def exSetBody : UpdateBody := { emptyUpdateBody with currentApplications := some 0 }

/-- Counterexample to C3 as stated: an owner Update call — not a
successful Apply — modifies `currentApplications`, overwriting the
stored 3 with 0, so the counter decreases. -/
theorem C3_counterexample :
    (updateInternshipHandler exDB3 "c1" oid1 exSetBody).1
        = .ok { exIntern3 with currentApplications := 0 }
      ∧ findInternship (updateInternshipHandler exDB3 "c1" oid1 exSetBody).2 oid1
        = some { exIntern3 with currentApplications := 0 }
      ∧ ({ exIntern3 with currentApplications := 0 }).currentApplications
          < exIntern3.currentApplications :=
  ⟨by decide, by decide, by decide⟩

/-- Witness for the amended C3: a concrete successful apply takes the
counter of `exDB0`'s record from 0 to 1, and creation yields 0. -/
theorem C3_witness :
    ((createInternship emptyDB "c1" oid2 0 baseCreateBody).1).currentApplications = 0
      ∧ ∃ i, findInternship exDB0 oid1 = some i
          ∧ findInternship exDB1 oid1 = some { i with currentApplications := i.currentApplications + 1 } :=
  ⟨C3_currentApplications_sources.1 emptyDB "c1" oid2 0 baseCreateBody,
   C3_currentApplications_sources.2.1 exDB0 100 oid1 "u1" "resume.pdf" "letter" "app1aaaaaaa1"
      exApp exDB1 (by decide)⟩

/-- Claim C4 (amended): Update and Delete by an authenticated
Organization that owns no record with the target id answer the one
NotFound used for a genuinely missing id — the handler's
`findOneAndUpdate`/`findOneAndDelete` filter checks id and owner
together — and leave the store unchanged; the responses for a
non-owned record and for an absent id are literally equal. The Update
half requires the payload's five list fields to be strings or absent:
a list-valued list field instead makes the unconditional comma-split
throw, a 500 answered before ownership is considered, which also
leaves the store unchanged. -/
theorem C4_update_delete_notfound :
    (∀ (db : DB) (caller id : String) (b b1 : UpdateBody),
      normalizeUpdateBody b = some b1 →
      (∀ j ∈ db.internships, j.id = id → j.company ≠ caller) →
      updateInternshipHandler db caller id b = (.notFound, db)
      ∧ deleteInternshipHandler db caller id = (.notFound, db)
      ∧ (∀ id2, (∀ j ∈ db.internships, j.id ≠ id2) →
          updateInternshipHandler db caller id b = updateInternshipHandler db caller id2 b
          ∧ deleteInternshipHandler db caller id = deleteInternshipHandler db caller id2))
    ∧ (∀ (db : DB) (caller id : String) (b2 : UpdateBody),
        normalizeUpdateBody b2 = none →
        updateInternshipHandler db caller id b2 = (.typeError, db)) := by
  have key : ∀ (db : DB) (caller id : String),
      (∀ j ∈ db.internships, j.id = id → j.company ≠ caller) →
      db.internships.find? (fun j => j.id == id && j.company == caller) = none := by
    intro db caller id hmis
    rw [List.find?_eq_none]
    intro j hj
    simp only [Bool.and_eq_true, beq_iff_eq, not_and]
    intro h1 h2
    exact hmis j hj h1 h2
  constructor
  · intro db caller id b b1 hb hmis
    have hnone := key db caller id hmis
    have hupd : updateInternshipHandler db caller id b = (.notFound, db) := by
      unfold updateInternshipHandler
      rw [hb, hnone]
    have hdel : deleteInternshipHandler db caller id = (.notFound, db) := by
      unfold deleteInternshipHandler
      rw [hnone]
    refine ⟨hupd, hdel, ?_⟩
    intro id2 hmiss2
    have hnone2 := key db caller id2 (fun j hj h1 => absurd h1 (hmiss2 j hj))
    constructor
    · rw [hupd]
      unfold updateInternshipHandler
      rw [hb, hnone2]
    · rw [hdel]
      unfold deleteInternshipHandler
      rw [hnone2]
  · intro db caller id b2 hb2
    unfold updateInternshipHandler
    rw [hb2]

/-- An update body whose `skills` field is already a JSON array. -/
def exArrBody : UpdateBody := { emptyUpdateBody with skills := .arr ["x"] }

/-- Counterexample to C4 as stated: company c2 does not own `exDB3`'s
record (owned by c1), yet its Update call carrying a list-valued
`skills` is answered with the 500 TypeError of the unconditional
comma-split, not with NotFound. -/
theorem C4_counterexample :
    (updateInternshipHandler exDB3 "c2" oid1 exArrBody).1 = .typeError
      ∧ (updateInternshipHandler exDB3 "c2" oid1 exArrBody).1 ≠ .notFound
      ∧ updateStatus .typeError = 500 ∧ updateStatus .notFound = 404 :=
  ⟨by decide, by decide, rfl, rfl⟩

/-- Witness for the amended C4: non-owner c2's plain update and delete
against `exDB3`'s record are both the NotFound with the store
unchanged, equal to the answers for the absent id `oid2`. -/
theorem C4_witness :
    (updateInternshipHandler exDB3 "c2" oid1 emptyUpdateBody = (.notFound, exDB3)
      ∧ deleteInternshipHandler exDB3 "c2" oid1 = (.notFound, exDB3)
      ∧ (updateInternshipHandler exDB3 "c2" oid1 emptyUpdateBody
            = updateInternshipHandler exDB3 "c2" oid2 emptyUpdateBody
          ∧ deleteInternshipHandler exDB3 "c2" oid1 = deleteInternshipHandler exDB3 "c2" oid2))
    ∧ updateInternshipHandler exDB3 "c2" oid1 exArrBody = (.typeError, exDB3) := by
  refine ⟨?_, C4_update_delete_notfound.2 exDB3 "c2" oid1 exArrBody (by decide)⟩
  have h := C4_update_delete_notfound.1 exDB3 "c2" oid1 emptyUpdateBody emptyUpdateBody
    (by decide) (by decide)
  exact ⟨h.1, h.2.1, h.2.2 oid2 (by decide)⟩

/-- After stripping a leading run of `p` and then a trailing run, the
leading edge is still clean: dropping again removes nothing. -/
theorem dropWhile_rdropWhile_dropWhile (p : α → Bool) (l : List α) :
    ((l.dropWhile p).rdropWhile p).dropWhile p = (l.dropWhile p).rdropWhile p := by
  rcases hr : (l.dropWhile p).rdropWhile p with _ | ⟨a, t⟩
  · simp
  · obtain ⟨rest, hrest⟩ := List.rdropWhile_prefix p (l.dropWhile p)
    rw [hr] at hrest
    have hmhead : (l.dropWhile p).head? = some a := by
      rw [← hrest]
      rfl
    have hnws := List.head?_dropWhile_not p l
    rw [hmhead] at hnws
    simp only at hnws
    exact List.dropWhile_cons_of_neg (by simp [hnws])

/-- JS trim is idempotent. -/
theorem jsTrim_idem (s : String) : jsTrim (jsTrim s) = jsTrim s := by
  show String.mk _ = String.mk _
  congr 1
  show (((List.rdropWhile Char.isWhitespace
      (s.data.dropWhile Char.isWhitespace)).dropWhile Char.isWhitespace).reverse.dropWhile
        Char.isWhitespace).reverse
    = List.rdropWhile Char.isWhitespace (s.data.dropWhile Char.isWhitespace)
  rw [dropWhile_rdropWhile_dropWhile]
  exact List.rdropWhile_idempotent Char.isWhitespace (s.data.dropWhile Char.isWhitespace)

/-- Claim C5 (amended): for every Create through `POST /api/internships`,
each of the five list fields is normalized into an ordered string list:
an already-structured list is accepted as-is, a comma-delimited string
is split on commas with each entry trimmed of whitespace (every stored
entry is fixed by trimming) — but empty entries are retained, not
dropped; the companies-route Create runs the same split-and-trim on
strings while an already-structured list there is not accepted (the
unconditional split throws). -/
theorem C5_create_list_normalization :
    (∀ (db : DB) (cid nid : String) (t : Int) (b : CreateBody),
      ((createInternship db cid nid t b).1).requirements = normalizeListField b.requirements
      ∧ ((createInternship db cid nid t b).1).responsibilities = normalizeListField b.responsibilities
      ∧ ((createInternship db cid nid t b).1).skills = normalizeListField b.skills
      ∧ ((createInternship db cid nid t b).1).benefits = normalizeListField b.benefits
      ∧ ((createInternship db cid nid t b).1).tags = normalizeListField b.tags)
    ∧ (∀ xs, normalizeListField (.arr xs) = xs)
    ∧ (∀ s, s ≠ "" → normalizeListField (.str s) = (jsSplitComma s).map jsTrim)
    ∧ (∀ s x, x ∈ normalizeListField (.str s) → jsTrim x = x)
    ∧ (∀ xs, normalizeListFieldCo (.arr xs) = none)
    ∧ (∀ s, normalizeListFieldCo (.str s) = some (normalizeListField (.str s))) := by
  refine ⟨fun db cid nid t b => ⟨rfl, rfl, rfl, rfl, rfl⟩, fun xs => rfl, ?_, ?_,
    fun xs => rfl, fun s => rfl⟩
  · intro s hs
    simp [normalizeListField, hs]
  · intro s x hx
    simp only [normalizeListField] at hx
    by_cases hs : s == ""
    · rw [if_pos hs] at hx
      simp at hx
    · rw [if_neg hs] at hx
      obtain ⟨y, hy, rfl⟩ := List.mem_map.mp hx
      exact jsTrim_idem y

/-- Counterexample to C5 as stated: creating with `skills = "a,,b"`
stores `["a", "", "b"]` — the empty entry between the consecutive
commas is trimmed to the empty string and retained, not dropped. -/
theorem C5_counterexample :
    ((createInternship emptyDB "c1" oid1 0
        { baseCreateBody with skills := .str "a,,b" }).1).skills = ["a", "", "b"]
      ∧ "" ∈ ((createInternship emptyDB "c1" oid1 0
          { baseCreateBody with skills := .str "a,,b" }).1).skills :=
  ⟨by decide, by decide⟩

/-- Witness for the amended C5 at concrete inputs: an array passes
through, a delimited string is split and trimmed with each entry fixed
by trimming, and the companies-route normalization rejects the array. -/
theorem C5_witness :
    normalizeListField (.arr ["x", "y"]) = ["x", "y"]
      ∧ normalizeListField (.str "a, b") = (jsSplitComma "a, b").map jsTrim
      ∧ jsTrim "a" = "a"
      ∧ normalizeListFieldCo (.arr ["x"]) = none :=
  ⟨C5_create_list_normalization.2.1 ["x", "y"],
   C5_create_list_normalization.2.2.1 "a, b" (by decide),
   C5_create_list_normalization.2.2.2.1 "a, b" "a" (by decide),
   C5_create_list_normalization.2.2.2.2.1 ["x"]⟩

/-- A record appended with a fresh id is the one `findById` returns. -/
theorem findInternship_append (db : DB) (i : Internship) (nid : String)
    (hfresh : ∀ j ∈ db.internships, j.id ≠ nid) (hid : i.id = nid) :
    findInternship { internships := db.internships ++ [i],
                     applications := db.applications } nid = some i := by
  unfold findInternship
  rw [List.find?_append]
  have hn : db.internships.find? (fun j => j.id == nid) = none := by
    rw [List.find?_eq_none]
    intro j hj
    simpa using hfresh j hj
  rw [hn]
  simp [hid]

/-- Claim C6 (amended): creating an Opportunity with
`skills = "a, b, c"` as a delimited string and re-fetching it by id
yields the list `["a","b","c"]`, and the create normalization is
idempotent — a list it produced is accepted unchanged when supplied as
a list. But the Update route is not idempotent on list-form input:
supplying any of the five list fields as a list makes the route's
unconditional comma-split throw, so the request fails with a 500
internal error (and the store is unchanged) instead of leaving the
field's value the same list. -/
theorem C6_roundtrip_idempotent :
    (∀ (db : DB) (cid nid : String) (t : Int) (b : CreateBody),
      isValidObjectId nid = true →
      (∀ j ∈ db.internships, j.id ≠ nid) →
      ((createInternship db cid nid t { b with skills := .str "a, b, c" }).1).skills
          = ["a", "b", "c"]
      ∧ ∃ i1, (getByIdHandler (createInternship db cid nid t
            { b with skills := .str "a, b, c" }).2 nid).1 = .ok i1
          ∧ i1.skills = ["a", "b", "c"])
    ∧ (∀ x, normalizeListField (.arr (normalizeListField x)) = normalizeListField x)
    ∧ (∀ (db : DB) (caller id : String) (b : UpdateBody) (xs : List String),
        b.skills = .arr xs →
        updateInternshipHandler db caller id b = (.typeError, db)
        ∧ updateStatus .typeError = 500) := by
  refine ⟨?_, fun x => rfl, ?_⟩
  · intro db cid nid t b hvalid hfresh
    have hfind : findInternship
        (createInternship db cid nid t { b with skills := .str "a, b, c" }).2 nid
        = some (createInternship db cid nid t { b with skills := .str "a, b, c" }).1 :=
      findInternship_append db _ nid hfresh rfl
    have hok : (getByIdHandler
          (createInternship db cid nid t { b with skills := .str "a, b, c" }).2 nid).1
        = .ok { (createInternship db cid nid t { b with skills := .str "a, b, c" }).1 with
                views := ((createInternship db cid nid t
                  { b with skills := .str "a, b, c" }).1).views + 1 } := by
      unfold getByIdHandler
      rw [hvalid, hfind]
      rfl
    exact ⟨rfl, ⟨_, hok, rfl⟩⟩
  · intro db caller id b xs hb
    have hnone : normalizeUpdateBody b = none := by
      unfold normalizeUpdateBody
      rw [hb]
      rcases updateNormField b.requirements with _ | r
      · rfl
      · rcases updateNormField b.responsibilities with _ | rs
        · rfl
        · rfl
    constructor
    · unfold updateInternshipHandler
      rw [hnone]
    · rfl

/-- A stored record whose `skills` is already the list
`["a","b","c"]`. -/
def exIntern6 : Internship := { baseInternship with skills := ["a", "b", "c"] }

/-- Store holding it, owned by c1. -/
def exDB6 : DB := { internships := [exIntern6], applications := [] }

/-- An owner update supplying `skills` already in list form. -/
def exListBody : UpdateBody := { emptyUpdateBody with skills := .arr ["a", "b", "c"] }

/-- Counterexample to C6 as stated: the owner's update supplying
`skills` in list form does not leave the value unchanged — the
unconditional split throws and the request is a 500, not a success
carrying the same list. -/
theorem C6_counterexample :
    updateInternshipHandler exDB6 "c1" oid1 exListBody = (.typeError, exDB6)
      ∧ updateStatus .typeError = 500
      ∧ updateInternshipHandler exDB6 "c1" oid1 exListBody ≠ (.ok exIntern6, exDB6) :=
  ⟨by decide, rfl, by decide⟩

/-- Witness for the amended C6: the concrete round trip through create
and fetch, idempotency at the concrete normalized list, and the 500 on
the concrete list-form update. -/
theorem C6_witness :
    (((createInternship emptyDB "c1" oid1 0
          { baseCreateBody with skills := .str "a, b, c" }).1).skills = ["a", "b", "c"]
      ∧ ∃ i1, (getByIdHandler (createInternship emptyDB "c1" oid1 0
            { baseCreateBody with skills := .str "a, b, c" }).2 oid1).1 = .ok i1
          ∧ i1.skills = ["a", "b", "c"])
      ∧ normalizeListField (.arr (normalizeListField (.str "a, b, c")))
          = normalizeListField (.str "a, b, c")
      ∧ updateInternshipHandler exDB6 "c1" oid1 exListBody = (.typeError, exDB6) :=
  ⟨C6_roundtrip_idempotent.1 emptyDB "c1" oid1 0 baseCreateBody (by decide)
      (by intro j hj; simp [emptyDB] at hj),
   C6_roundtrip_idempotent.2.1 (.str "a, b, c"),
   (C6_roundtrip_idempotent.2.2 exDB6 "c1" oid1 exListBody ["a", "b", "c"] rfl).1⟩

/-- Claim C7 (amended): Fetch-by-id fails with the 404 NotFound when no
record with the (structurally valid) id exists; a structurally invalid
identifier is instead rejected with a 400 invalid-format error before
the store is consulted. Neither failure touches the store. -/
theorem C7_fetch_failures :
    (∀ (db : DB) (id : String), isValidObjectId id = false →
      getByIdHandler db id = (.invalidId, db) ∧ fetchStatus .invalidId = 400)
    ∧ (∀ (db : DB) (id : String), isValidObjectId id = true → findInternship db id = none →
        getByIdHandler db id = (.notFound, db) ∧ fetchStatus .notFound = 404) := by
  constructor
  · intro db id hinvalid
    refine ⟨?_, rfl⟩
    unfold getByIdHandler
    rw [hinvalid]
    rfl
  · intro db id hvalid hfind
    refine ⟨?_, rfl⟩
    unfold getByIdHandler
    rw [hvalid, hfind]
    rfl

/-- Counterexample to C7 as stated: the structurally invalid id "xyz"
is answered with the 400 invalid-format outcome, not the 404
NotFound the claim asserts. -/
theorem C7_counterexample :
    (getByIdHandler emptyDB "xyz").1 = .invalidId
      ∧ fetchStatus (getByIdHandler emptyDB "xyz").1 = 400
      ∧ fetchStatus (getByIdHandler emptyDB "xyz").1 ≠ 404 :=
  ⟨by decide, by decide, by decide⟩

/-- Witness for the amended C7 at concrete inputs: "xyz" gets the 400,
and the absent but well-formed `oid2` gets the 404. -/
theorem C7_witness :
    (getByIdHandler emptyDB "xyz" = (.invalidId, emptyDB) ∧ fetchStatus .invalidId = 400)
      ∧ (getByIdHandler emptyDB oid2 = (.notFound, emptyDB) ∧ fetchStatus .notFound = 404) :=
  ⟨C7_fetch_failures.1 emptyDB "xyz" (by decide),
   C7_fetch_failures.2 emptyDB oid2 (by decide) (by decide)⟩


/-- The store after re-saving record `i1` over the record with this id
(the fetch route's `internship.save()`). -/
def viewsBumpedDB (db : DB) (id : String) (i1 : Internship) : DB :=
  { db with internships := updateFirst (fun j => j.id == id) (fun _ => i1) db.internships }

/-- Claim C8: every successful fetch-by-id increments the record's
`views` by exactly 1, changes no other field of the record, leaves the
Application ledger untouched, and does so again on an immediate repeat
fetch (no deduplication: the second fetch shows `views + 2`). -/
theorem C8_fetch_increments_views :
    ∀ (db : DB) (id : String) (i : Internship),
      isValidObjectId id = true → findInternship db id = some i →
      ∃ i1, getByIdHandler db id = (.ok i1, viewsBumpedDB db id i1)
        ∧ i1.views = i.views + 1
        ∧ { i1 with views := i.views } = i
        ∧ ((getByIdHandler db id).2).applications = db.applications
        ∧ ∃ i2, (getByIdHandler (getByIdHandler db id).2 id).1 = .ok i2
            ∧ i2.views = i.views + 2 := by
  intro db id i hvalid hfind
  have h1 : getByIdHandler db id
      = (.ok { i with views := i.views + 1 },
         viewsBumpedDB db id { i with views := i.views + 1 }) := by
    unfold getByIdHandler viewsBumpedDB
    rw [hvalid, hfind]
    rfl
  refine ⟨{ i with views := i.views + 1 }, h1, rfl, rfl, by rw [h1]; rfl, ?_⟩
  have hfind0 : db.internships.find? (fun j => j.id == id) = some i := hfind
  have hp0 := List.find?_some hfind0
  have hfind2 : findInternship (getByIdHandler db id).2 id
      = some { i with views := i.views + 1 } := by
    rw [h1]
    exact find?_updateFirst_of_some hfind0 _ (by simpa using hp0)
  rw [show (getByIdHandler db id).2 = viewsBumpedDB db id { i with views := i.views + 1 }
      from by rw [h1]] at hfind2 ⊢
  refine ⟨{ i with views := i.views + 2 }, ?_, rfl⟩
  unfold getByIdHandler
  rw [hvalid, hfind2]
  rfl

/-- Witness for C8: fetching the concrete record of `exDB0` (0 views)
returns it with 1 view, all other fields intact, and an immediate
refetch shows 2 views. -/
theorem C8_witness :
    ∃ i1, getByIdHandler exDB0 oid1 = (.ok i1, viewsBumpedDB exDB0 oid1 i1)
      ∧ i1.views = baseInternship.views + 1
      ∧ { i1 with views := baseInternship.views } = baseInternship
      ∧ ((getByIdHandler exDB0 oid1).2).applications = exDB0.applications
      ∧ ∃ i2, (getByIdHandler (getByIdHandler exDB0 oid1).2 oid1).1 = .ok i2
          ∧ i2.views = baseInternship.views + 2 :=
  C8_fetch_increments_views exDB0 oid1 baseInternship (by decide) (by decide)

/-- Claim C9: a search whose filters match no active Opportunity is a
success response with an empty page, `total = 0` and a computed page
count of 0 (for any positive parsed page size). -/
theorem C9_search_no_matches :
    ∀ (db : DB) (q : SearchQuery), 0 < q.limit →
      (∀ i ∈ db.internships, matchesQuery q i = false) →
      searchHandler db q =
        { success := true, count := 0, total := 0, page := q.page,
          pages := some 0, internships := [] } := by
  intro db q hl hnomatch
  have hfilter : db.internships.filter (matchesQuery q) = [] := by
    rw [List.filter_eq_nil_iff]
    intro a ha
    simp [hnomatch a ha]
  have hlz : (q.limit == 0) = false := by
    simp only [beq_eq_false_iff_ne, ne_eq]
    omega
  have hz : (0 + q.limit - 1) / q.limit = 0 := Nat.div_eq_of_lt (by omega)
  unfold searchHandler
  simp only [hfilter, searchSort_nil, hlz, List.drop_nil, List.take_nil,
    List.length_nil, Bool.false_eq_true, if_false, hz]

/-- A store whose only record is inactive and therefore unsearchable. -/
def exDBInactive : DB :=
  { internships := [{ baseInternship with isActive := false }], applications := [] }

/-- The default parsed search query: no filters, page 1, limit 10. -/
def exQuery : SearchQuery :=
  { search := none, location := none, industry := none, internshipType := none,
    category := none, experienceLevel := none, salaryMin := none, salaryMax := none,
    page := 1, limit := 10, sort := "createdAt", ord := "desc" }

/-- Witness for C9: the default search over the store with only an
inactive record succeeds with an empty page, total 0, pages 0. -/
theorem C9_witness :
    searchHandler exDBInactive exQuery =
      { success := true, count := 0, total := 0, page := 1,
        pages := some 0, internships := [] } :=
  C9_search_no_matches exDBInactive exQuery (by decide)
    (by intro i hi; simp only [exDBInactive, List.mem_singleton] at hi; subst hi; decide)

/-- The registration body used by the C10 witness, with the given role
field. -/
def exRegBody (r : Option String) : RegisterBody :=
  { firstName := "A", lastName := "B", email := "a@b.c", password := "secret1", role := r }

/-- The user the C10 witness expects to be stored, with the given
role. -/
def exUser (r : String) : User :=
  { id := "u9", firstName := "A", lastName := "B", email := "a@b.c",
    password := "secret1", resume := "", role := r }

/-- Claim C10: the public registration route stores a caller-supplied
`role` on the created user — any of intern, company, admin can be
self-assigned — defaults to intern exactly when the field is absent,
and rejects a value outside the schema enum. -/
theorem C10_register_role :
    ∀ (users : List User) (fid : String) (b : RegisterBody),
      users.find? (fun u => u.email == b.email) = none →
      (∀ r, b.role = some r → r ∈ userRoles →
        registerHandler users fid b =
          (.created { id := fid, firstName := b.firstName, lastName := b.lastName,
                      email := b.email, password := b.password, resume := "", role := r },
           users ++ [{ id := fid, firstName := b.firstName, lastName := b.lastName,
                       email := b.email, password := b.password, resume := "", role := r }]))
      ∧ (b.role = none →
          registerHandler users fid b =
            (.created { id := fid, firstName := b.firstName, lastName := b.lastName,
                        email := b.email, password := b.password, resume := "",
                        role := "intern" },
             users ++ [{ id := fid, firstName := b.firstName, lastName := b.lastName,
                         email := b.email, password := b.password, resume := "",
                         role := "intern" }]))
      ∧ (∀ r, b.role = some r → r ∉ userRoles →
          registerHandler users fid b = (.invalidRole, users)) := by
  intro users fid b hmail
  refine ⟨?_, ?_, ?_⟩
  · intro r hr hmem
    simp only [userRoles, List.mem_cons, List.not_mem_nil, or_false] at hmem
    unfold registerHandler
    rw [hmail, hr]
    rcases hmem with rfl | rfl | rfl <;> rfl
  · intro hr
    unfold registerHandler
    rw [hmail, hr]
    rfl
  · intro r hr hnotin
    simp only [userRoles, List.mem_cons, List.not_mem_nil, or_false, not_or] at hnotin
    obtain ⟨h1, h2, h3⟩ := hnotin
    unfold registerHandler
    rw [hmail, hr]
    simp only [Option.isSome_none, Bool.false_eq_true, if_false, Option.getD_some]
    rw [if_neg]
    simp only [userRoles, List.contains_eq_any_beq, List.any_cons, List.any_nil,
      Bool.or_false, Bool.or_eq_true, beq_iff_eq, not_or]
    exact ⟨h1, h2, h3⟩

/-- Witness for C10: with a fresh email, supplying role admin stores
admin, omitting the role stores intern, and the out-of-enum role
"root" is rejected. -/
theorem C10_witness :
    registerHandler [] "u9" (exRegBody (some "admin"))
        = (.created (exUser "admin"), [exUser "admin"])
      ∧ registerHandler [] "u9" (exRegBody none)
        = (.created (exUser "intern"), [exUser "intern"])
      ∧ registerHandler [] "u9" (exRegBody (some "root")) = (.invalidRole, []) :=
  ⟨(C10_register_role [] "u9" (exRegBody (some "admin")) (by decide)).1 "admin" rfl (by decide),
   (C10_register_role [] "u9" (exRegBody none) (by decide)).2.1 rfl,
   (C10_register_role [] "u9" (exRegBody (some "root")) (by decide)).2.2 "root" rfl (by decide)⟩
